import Mathlib

/-!
Verification of `taskcluster/android_taskgraph/loader/multi_dep.py`.

The module is a loader plugin for a task-graph framework: it receives groups
of previously-loaded tasks (produced by the external `group_tasks`), checks
that each group has one task per kind, selects a primary dependency and
yields a task dictionary per group, optionally updated from a task template.

We embed the module shallowly:
* a Python task is a `Task` (only the fields the module touches: `kind`,
  `label`);
* Python dictionaries are association lists in insertion order with unique
  keys; insertion (`dinsert`) mirrors Python assignment `d[k] = v` (replace
  in place if the key exists, append otherwise), `dupdate` mirrors
  `dict.update`, `dlookup` mirrors subscripting;
* the generator `loader` is a function returning the list of yielded task
  dictionaries together with the exception, if any, that stopped it;
* exceptions are explicit error values.  In Python 3 the expression
  `dep_tasks.values()[0]` raises `TypeError` (a `dict_values` view is not
  subscriptable); we model that outcome faithfully.
* `copy.deepcopy` is modelled as the identity: the embedding is pure, so a
  deep copy is equal to its original.
`group_tasks` lives in `loader/__init__.py`, outside this module; the
claims quantify over its output, so `loader` here takes the list of groups
as an argument.
-/

namespace MultiDep

/-- A task, restricted to the fields `multi_dep.py` reads. -/
structure Task where
  kind : String
  label : String
deriving DecidableEq, Repr

/-- Keys of an association list (a Python dict in insertion order). -/
def dkeys {α : Type} (d : List (String × α)) : List String :=
  d.map Prod.fst

/-- Values of an association list. -/
def dvalues {α : Type} (d : List (String × α)) : List α :=
  d.map Prod.snd

/-- Python dict subscripting `d[k]`: the value stored at `k`, if any. -/
def dlookup {α : Type} (d : List (String × α)) (k : String) : Option α :=
  match d with
  | [] => Option.none
  | p :: rest => if p.1 = k then some p.2 else dlookup rest k

/-- Python dict assignment `d[k] = v`: replace in place if `k` is present,
append otherwise. -/
def dinsert {α : Type} (d : List (String × α)) (k : String) (v : α) :
    List (String × α) :=
  if (dkeys d).contains k then
    d.map (fun p => if p.1 = k then (k, v) else p)
  else
    d ++ [(k, v)]

/-- Python `d.update(e)`: assign every entry of `e` into `d`, in order. -/
def dupdate {α : Type} (d e : List (String × α)) : List (String × α) :=
  e.foldl (fun acc p => dinsert acc p.1 p.2) d

/-- The comprehension `{dep.kind: dep for dep in dep_tasks}` (multi_dep.py line 53). -/
def dictOfTasks (ts : List Task) : List (String × Task) :=
  ts.foldl (fun d t => dinsert d t.kind t) []

/-- The `primary-dependency` entry of the kind configuration: absent, a
string, or a list of kind names. -/
inductive PrimaryDep where
  | undef : PrimaryDep
  | str : String → PrimaryDep
  | list : List String → PrimaryDep
deriving DecidableEq, Repr

/-- Exceptions `get_primary_dep` can raise. -/
inductive DepError where
  /-- The `AssertionError` from the line `assert len(dep_tasks) == 1`. -/
  | mustDefinePrimary : DepError
  /-- The `TypeError` from `dep_tasks.values()[0]`: in Python 3 a `dict_values`
  view is not subscriptable. -/
  | valuesNotSubscriptable : DepError
  /-- The `assert primary_dep is None` branch.  (In CPython the message
  `[t.label for t in dep_tasks]` itself raises `AttributeError`, since
  iterating a dict yields string keys; an exception escapes either way.) -/
  | tooManyPrimary : DepError
  /-- The `KeyError` from `dep_tasks[dep_kind]` (unreachable: `dep_kind` is
  obtained by iterating `dep_tasks`). -/
  | keyError : DepError
  /-- The final `raise Exception("Can't find dependency ...")`. -/
  | cantFindDependency : DepError
deriving DecidableEq, Repr

/-- Lines 78-79: `if isinstance(primary_dependencies, str):
primary_dependencies = [primary_dependencies]`.  `Option.none` stands for
the Python `None` returned by `config.get`. -/
def toKindList : PrimaryDep → Option (List String)
  | PrimaryDep.undef => Option.none
  | PrimaryDep.str s => some [s]
  | PrimaryDep.list l => some l

/-- Python truthiness test `if not primary_dependencies` after the
`isinstance` normalisation: `None` and the empty list are falsy. -/
def falsy : Option (List String) → Bool
  | Option.none => true
  | some l => l.isEmpty

/-- The inner loop `for dep_kind in dep_tasks` of `get_primary_dep`,
iterating over `iter` (the keys of `dep_tasks` in insertion order) with the
running value of `primary_dep` in `acc`. -/
def innerLoop (dep_tasks : List (String × Task)) (primary_kind : String)
    (acc : Option Task) : List (String × Task) → Except DepError (Option Task)
  | [] => Except.ok acc
  | p :: rest =>
    if p.1 = primary_kind then
      match acc with
      | some _ => Except.error DepError.tooManyPrimary
      | Option.none =>
        match dlookup dep_tasks p.1 with
        | some v => innerLoop dep_tasks primary_kind (some v) rest
        | Option.none => Except.error DepError.keyError
    else
      innerLoop dep_tasks primary_kind acc rest

/-- The outer loop `for primary_kind in primary_dependencies`. -/
def outerLoop (dep_tasks : List (String × Task)) (acc : Option Task) :
    List String → Except DepError (Option Task)
  | [] => Except.ok acc
  | k :: ks =>
    match innerLoop dep_tasks k acc dep_tasks with
    | Except.error e => Except.error e
    | Except.ok acc2 => outerLoop dep_tasks acc2 ks

/-- The function `get_primary_dep(config, dep_tasks)` (multi_dep.py lines 68-99).  Only
the `primary-dependency` entry of `config` is read, so it is passed
directly. -/
def get_primary_dep (cfg : PrimaryDep) (dep_tasks : List (String × Task)) :
    Except DepError Task :=
  let primary_dependencies := toKindList cfg
  if falsy primary_dependencies then
    if dep_tasks.length = 1 then
      Except.error DepError.valuesNotSubscriptable
    else
      Except.error DepError.mustDefinePrimary
  else
    match outerLoop dep_tasks Option.none (primary_dependencies.getD []) with
    | Except.error e => Except.error e
    | Except.ok Option.none => Except.error DepError.cantFindDependency
    | Except.ok (some t) => Except.ok t

/-- The test of `assert_unique_members` (lines 63-65): `True` means the exception is
raised, i.e. `len(kinds) != len(set(kinds))`. -/
def assert_unique_members (kinds : List String) : Bool :=
  kinds.length != kinds.dedup.length

/-- A value stored in a yielded task dictionary: a task, a dictionary of
tasks keyed by kind, or an opaque template payload. -/
inductive Value where
  | task : Task → Value
  | taskDict : List (String × Task) → Value
  | payload : String → Value
deriving DecidableEq, Repr

/-- The kind configuration entries `loader` reads. -/
structure LoaderConfig where
  primaryDependency : PrimaryDep
  taskTemplate : Option (List (String × Value))
deriving DecidableEq, Repr

/-- Exceptions escaping `loader`. -/
inductive LoaderError where
  /-- The exception raised when `assert_unique_members` failed for a group. -/
  | duplicateKinds : LoaderError
  /-- An exception that `get_primary_dep` raised. -/
  | dep : DepError → LoaderError
deriving DecidableEq, Repr

/-- The body of `loader`'s `for dep_tasks in group_tasks(...)` loop up to
the template update: the uniqueness assertion, the kind-keyed dictionary,
and the two computed entries of the yielded task. -/
def buildTask (cfg : LoaderConfig) (dep_tasks : List Task) :
    Except LoaderError (List (String × Value)) :=
  let kinds := dep_tasks.map Task.kind
  if assert_unique_members kinds then
    Except.error LoaderError.duplicateKinds
  else
    let dep_tasks_per_kind := dictOfTasks dep_tasks
    let task : List (String × Value) :=
      [("dependent-tasks", Value.taskDict dep_tasks_per_kind)]
    match get_primary_dep cfg.primaryDependency dep_tasks_per_kind with
    | Except.error e => Except.error (LoaderError.dep e)
    | Except.ok p => Except.ok (dinsert task "primary-dependency" (Value.task p))

/-- Python truthiness of `task_template`: `None` and the empty dict are
falsy. -/
def truthyTemplate : Option (List (String × Value)) → Bool
  | Option.none => false
  | some t => !t.isEmpty

/-- One iteration of `loader`'s loop: `buildTask` followed by
`task.update(copy.deepcopy(task_template))` when the template is truthy
(deep copy modelled as identity in the pure embedding). -/
def processGroup (cfg : LoaderConfig) (group : List Task) :
    Except LoaderError (List (String × Value)) :=
  match buildTask cfg group with
  | Except.error e => Except.error e
  | Except.ok task =>
    if truthyTemplate cfg.taskTemplate then
      Except.ok (dupdate task (cfg.taskTemplate.getD []))
    else
      Except.ok task

/-- The generator `loader`: processes the groups produced by `group_tasks`
in order, returning the task dictionaries yielded before any exception and
the exception, if one was raised (a raised exception ends the generator, so
nothing after it is yielded). -/
def loader (cfg : LoaderConfig) (groups : List (List Task)) :
    List (List (String × Value)) × Option LoaderError :=
  match groups with
  | [] => ([], Option.none)
  | g :: gs =>
    match processGroup cfg g with
    | Except.error e => ([], some e)
    | Except.ok t =>
      let rest := loader cfg gs
      (t :: rest.1, rest.2)

end MultiDep

namespace MultiDep

def tA : Task := ⟨"a", "la"⟩
def tB : Task := ⟨"b", "lb"⟩
def tA2 : Task := ⟨"a", "la2"⟩
def tBuild : Task := ⟨"build", "build-label"⟩


end MultiDep

namespace MultiDep

theorem dkeys_nil {α : Type} : dkeys ([] : List (String × α)) = [] := rfl

theorem dkeys_cons {α : Type} (p : String × α) (d : List (String × α)) :
    dkeys (p :: d) = p.1 :: dkeys d := rfl

theorem dkeys_append {α : Type} (d e : List (String × α)) :
    dkeys (d ++ e) = dkeys d ++ dkeys e := by
  simp [dkeys]

theorem dlookup_eq_none_of_not_mem {α : Type} {d : List (String × α)} {k : String}
    (h : k ∉ dkeys d) : dlookup d k = Option.none := by
  induction d with
  | nil => rfl
  | cons p rest ih =>
    rw [dkeys_cons, List.mem_cons] at h
    push_neg at h
    have h1 : ¬ p.1 = k := fun he => h.1 he.symm
    simp [dlookup, h1, ih h.2]

theorem dlookup_isSome_of_mem_dkeys {α : Type} {d : List (String × α)} {k : String}
    (h : k ∈ dkeys d) : ∃ v, dlookup d k = some v := by
  induction d with
  | nil => cases h
  | cons p rest ih =>
    by_cases hk : p.1 = k
    · exact ⟨p.2, by simp [dlookup, hk]⟩
    · rw [dkeys_cons, List.mem_cons] at h
      rcases h with h | h
      · exact absurd h.symm hk
      · rcases ih h with ⟨v, hv⟩
        exact ⟨v, by simp [dlookup, hk, hv]⟩

theorem mem_dkeys_of_dlookup {α : Type} {d : List (String × α)} {k : String} {v : α}
    (h : dlookup d k = some v) : k ∈ dkeys d := by
  by_contra hk
  rw [dlookup_eq_none_of_not_mem hk] at h
  cases h

theorem dlookup_of_mem {α : Type} {d : List (String × α)} {k : String} {v : α}
    (hnd : (dkeys d).Nodup) (hm : (k, v) ∈ d) : dlookup d k = some v := by
  induction d with
  | nil => cases hm
  | cons p rest ih =>
    rw [dkeys_cons, List.nodup_cons] at hnd
    rcases List.mem_cons.1 hm with h | h
    · simp [dlookup, ← h]
    · have hk : k ∈ dkeys rest := List.mem_map.2 ⟨(k, v), h, rfl⟩
      have hp : p.1 ≠ k := fun he => hnd.1 (he ▸ hk)
      simp [dlookup, hp]
      exact ih hnd.2 h

theorem dlookup_append {α : Type} (d e : List (String × α)) (k : String) :
    dlookup (d ++ e) k =
      match dlookup d k with
      | some v => some v
      | Option.none => dlookup e k := by
  induction d with
  | nil => simp [dlookup]
  | cons p rest ih =>
    by_cases hp : p.1 = k <;> simp [dlookup, hp, ih]

theorem dlookup_replace {α : Type} (d : List (String × α)) (k k2 : String) (v : α) :
    dlookup (d.map fun p => if p.1 = k then (k, v) else p) k2 =
      if k2 = k then (if k ∈ dkeys d then some v else Option.none)
      else dlookup d k2 := by
  induction d with
  | nil => by_cases h : k2 = k <;> simp [dlookup, dkeys, h]
  | cons p rest ih =>
    by_cases hp : p.1 = k
    · by_cases h2 : k2 = k
      · subst h2
        simp [dlookup, dkeys_cons, hp]
      · simp only [List.map_cons, hp, if_true, dlookup, h2, if_false,
          Ne.symm h2, ih]
    · by_cases h2 : k2 = k
      · have hp2 : ¬ p.1 = k2 := fun he => hp (he.trans h2)
        have hne : (k ∈ dkeys (p :: rest)) ↔ (k ∈ dkeys rest) := by
          rw [dkeys_cons, List.mem_cons]
          exact ⟨fun h => h.elim (fun he => absurd he.symm hp) id, Or.inr⟩
        simp [dlookup, hp, hp2, h2, ih, hne]
        rw [h2] at ih
        simpa using ih
      · by_cases hpk2 : p.1 = k2
        · simp [dlookup, hp, hpk2, h2]
        · simp [dlookup, hp, hpk2, h2, ih]

theorem dlookup_single {α : Type} (k k2 : String) (v : α) :
    dlookup [(k, v)] k2 = if k = k2 then some v else Option.none := by
  simp [dlookup]

theorem dlookup_dinsert {α : Type} (d : List (String × α)) (k k2 : String) (v : α) :
    dlookup (dinsert d k v) k2 = if k2 = k then some v else dlookup d k2 := by
  unfold dinsert
  by_cases hc : (dkeys d).contains k
  · have hm : k ∈ dkeys d := by simpa using hc
    rw [if_pos hc, dlookup_replace, if_pos hm]
  · have hm : k ∉ dkeys d := by simpa using hc
    rw [if_neg hc, dlookup_append]
    by_cases h2 : k2 = k
    · have hm2 : dlookup d k2 = Option.none := by
        rw [h2]
        exact dlookup_eq_none_of_not_mem hm
      rw [hm2]
      simp [dlookup_single, h2]
    · rw [if_neg h2]
      cases hl : dlookup d k2 with
      | none =>
        rw [dlookup_single, if_neg (fun he => h2 he.symm)]
      | some w => rfl

theorem dkeys_dinsert {α : Type} (d : List (String × α)) (k : String) (v : α) :
    dkeys (dinsert d k v) =
      if (dkeys d).contains k then dkeys d else dkeys d ++ [k] := by
  unfold dinsert
  by_cases hc : (dkeys d).contains k
  · rw [if_pos hc, if_pos hc]
    have hfun : (fun p : String × α => (if p.1 = k then (k, v) else p).1)
        = (fun p : String × α => p.1) := by
      funext p
      by_cases h : p.1 = k <;> simp [h]
    unfold dkeys
    rw [List.map_map]
    show d.map (fun p => (if p.1 = k then (k, v) else p).1) = d.map Prod.fst
    rw [hfun]
  · rw [if_neg hc, if_neg hc, dkeys_append]
    rfl

theorem mem_dkeys_dinsert {α : Type} (d : List (String × α)) (k k2 : String) (v : α) :
    k2 ∈ dkeys (dinsert d k v) ↔ k2 = k ∨ k2 ∈ dkeys d := by
  rw [dkeys_dinsert]
  by_cases hc : (dkeys d).contains k
  · have hm : k ∈ dkeys d := by simpa using hc
    rw [if_pos hc]
    constructor
    · exact Or.inr
    · rintro (rfl | h)
      · exact hm
      · exact h
  · rw [if_neg hc, List.mem_append, List.mem_singleton]
    tauto

theorem dlookup_dupdate_not_mem {α : Type} (d e : List (String × α)) (k : String)
    (h : k ∉ dkeys e) : dlookup (dupdate d e) k = dlookup d k := by
  induction e generalizing d with
  | nil => rfl
  | cons p rest ih =>
    rw [dkeys_cons, List.mem_cons] at h
    push_neg at h
    show dlookup (dupdate (dinsert d p.1 p.2) rest) k = dlookup d k
    rw [ih (dinsert d p.1 p.2) h.2, dlookup_dinsert, if_neg h.1]

theorem dlookup_dupdate_mem {α : Type} (d : List (String × α))
    {e : List (String × α)} {k : String} {v : α}
    (hnd : (dkeys e).Nodup) (hm : (k, v) ∈ e) :
    dlookup (dupdate d e) k = some v := by
  induction e generalizing d with
  | nil => cases hm
  | cons p rest ih =>
    rw [dkeys_cons, List.nodup_cons] at hnd
    show dlookup (dupdate (dinsert d p.1 p.2) rest) k = some v
    rcases List.mem_cons.1 hm with h | h
    · have hk : k ∉ dkeys rest := by
        rw [← h] at hnd
        exact hnd.1
      rw [dlookup_dupdate_not_mem _ _ _ hk, dlookup_dinsert, ← h, if_pos rfl]
    · exact ih _ hnd.2 h

theorem dictOfTasks_go (ts : List Task) (acc : List (String × Task))
    (hnd : (dkeys acc ++ ts.map Task.kind).Nodup) :
    ts.foldl (fun d t => dinsert d t.kind t) acc
      = acc ++ ts.map (fun t => (t.kind, t)) := by
  induction ts generalizing acc with
  | nil => simp
  | cons t rest ih =>
    have hsplit := List.nodup_append.1 hnd
    have hne : t.kind ∉ dkeys acc := fun hm =>
      hsplit.2.2 hm (List.mem_cons_self _ _)
    have hc : ¬ (dkeys acc).contains t.kind = true := by
      simpa using hne
    have hstep : dinsert acc t.kind t = acc ++ [(t.kind, t)] := by
      unfold dinsert
      rw [if_neg hc]
    show List.foldl (fun d t => dinsert d t.kind t) (dinsert acc t.kind t) rest
        = acc ++ List.map (fun t => (t.kind, t)) (t :: rest)
    rw [hstep]
    have harr : dkeys (acc ++ [(t.kind, t)]) ++ rest.map Task.kind
        = dkeys acc ++ (t :: rest).map Task.kind := by
      rw [dkeys_append]
      simp [dkeys]
    have hnd2 : (dkeys (acc ++ [(t.kind, t)]) ++ rest.map Task.kind).Nodup := by
      rw [harr]
      exact hnd
    rw [ih (acc ++ [(t.kind, t)]) hnd2]
    simp

theorem dictOfTasks_eq_map {ts : List Task} (hnd : (ts.map Task.kind).Nodup) :
    dictOfTasks ts = ts.map (fun t => (t.kind, t)) := by
  unfold dictOfTasks
  have h := dictOfTasks_go ts [] (by simpa [dkeys] using hnd)
  simpa using h

theorem dkeys_dictOfTasks {ts : List Task} (hnd : (ts.map Task.kind).Nodup) :
    dkeys (dictOfTasks ts) = ts.map Task.kind := by
  rw [dictOfTasks_eq_map hnd]
  simp [dkeys, Function.comp]

theorem dvalues_dictOfTasks {ts : List Task} (hnd : (ts.map Task.kind).Nodup) :
    dvalues (dictOfTasks ts) = ts := by
  rw [dictOfTasks_eq_map hnd]
  unfold dvalues
  rw [List.map_map]
  exact List.map_id ts

theorem dlookup_dictOfTasks {ts : List Task} {t : Task}
    (hnd : (ts.map Task.kind).Nodup) (hm : t ∈ ts) :
    dlookup (dictOfTasks ts) t.kind = some t := by
  rw [dictOfTasks_eq_map hnd]
  apply dlookup_of_mem
  · rw [show dkeys (ts.map fun t => (t.kind, t)) = ts.map Task.kind by
      simp [dkeys, Function.comp]]
    exact hnd
  · exact List.mem_map.2 ⟨t, hm, rfl⟩

theorem innerLoop_not_mem {d : List (String × Task)} {k : String}
    (acc : Option Task) {l : List (String × Task)} (h : k ∉ dkeys l) :
    innerLoop d k acc l = Except.ok acc := by
  induction l with
  | nil => rfl
  | cons p rest ih =>
    rw [dkeys_cons, List.mem_cons] at h
    push_neg at h
    have h1 : ¬ p.1 = k := fun he => h.1 he.symm
    simp [innerLoop, h1, ih h.2]

theorem innerLoop_some {d : List (String × Task)} {k : String} (t : Task)
    {l : List (String × Task)} (h : k ∈ dkeys l) :
    innerLoop d k (some t) l = Except.error DepError.tooManyPrimary := by
  induction l with
  | nil => cases h
  | cons p rest ih =>
    by_cases hp : p.1 = k
    · simp [innerLoop, hp]
    · rw [dkeys_cons, List.mem_cons] at h
      rcases h with h | h
      · exact absurd h.symm hp
      · simp [innerLoop, hp, ih h]

theorem innerLoop_none {d : List (String × Task)} {k : String} {v : Task}
    {l : List (String × Task)} (hnd : (dkeys l).Nodup) (hmem : k ∈ dkeys l)
    (hv : dlookup d k = some v) :
    innerLoop d k Option.none l = Except.ok (some v) := by
  induction l with
  | nil => cases hmem
  | cons p rest ih =>
    rw [dkeys_cons, List.nodup_cons] at hnd
    by_cases hp : p.1 = k
    · have hrest : k ∉ dkeys rest := hp ▸ hnd.1
      rw [show innerLoop d k Option.none (p :: rest)
          = match dlookup d p.1 with
            | some v => innerLoop d k (some v) rest
            | Option.none => Except.error DepError.keyError from by
          simp [innerLoop, hp]]
      rw [hp, hv]
      exact innerLoop_not_mem (some v) hrest
    · rw [dkeys_cons, List.mem_cons] at hmem
      rcases hmem with h | h
      · exact absurd h.symm hp
      · simp [innerLoop, hp]
        exact ih hnd.2 h

theorem outerLoop_some (d : List (String × Task)) (t : Task) (ks : List String) :
    outerLoop d (some t) ks =
      if ks.all (fun k => !(dkeys d).contains k) then Except.ok (some t)
      else Except.error DepError.tooManyPrimary := by
  induction ks with
  | nil => rfl
  | cons k rest ih =>
    by_cases hk : k ∈ dkeys d
    · have h1 := innerLoop_some (d := d) t hk
      have hc : (dkeys d).contains k = true := by simpa using hk
      simp [outerLoop, h1, List.all_cons, hc, hk]
    · have h1 := innerLoop_not_mem (d := d) (some t) hk
      have hc : (dkeys d).contains k = false := by simpa using hk
      simp [outerLoop, h1, List.all_cons, hc, hk, ih]

theorem outerLoop_none (d : List (String × Task)) (hnd : (dkeys d).Nodup)
    (ks : List String) :
    outerLoop d Option.none ks =
      match ks.filter (fun k => (dkeys d).contains k) with
      | [] => Except.ok Option.none
      | [k] => Except.ok (dlookup d k)
      | _ :: _ :: _ => Except.error DepError.tooManyPrimary := by
  induction ks with
  | nil => rfl
  | cons k rest ih =>
    by_cases hk : k ∈ dkeys d
    · have hc : (dkeys d).contains k = true := by simpa using hk
      rcases dlookup_isSome_of_mem_dkeys hk with ⟨v, hv⟩
      have hinner : innerLoop d k Option.none d = Except.ok (some v) :=
        innerLoop_none hnd hk hv
      rw [show outerLoop d Option.none (k :: rest)
          = match innerLoop d k Option.none d with
            | Except.error e => Except.error e
            | Except.ok acc2 => outerLoop d acc2 rest from rfl]
      rw [hinner]
      show outerLoop d (some v) rest = _
      rw [outerLoop_some d v rest]
      rw [List.filter_cons_of_pos (by simpa using hc)]
      by_cases hall : rest.all (fun k => !(dkeys d).contains k)
      · have hfil : rest.filter (fun k => (dkeys d).contains k) = [] := by
          rw [List.filter_eq_nil_iff]
          intro a ha
          have := List.all_eq_true.1 hall a ha
          simpa using this
        rw [if_pos hall, hfil]
        simp [hv]
      · have hfil : rest.filter (fun k => (dkeys d).contains k) ≠ [] := by
          intro hcon
          apply hall
          rw [List.all_eq_true]
          intro a ha
          have := List.filter_eq_nil_iff.1 hcon a ha
          simpa using this
        rw [if_neg hall]
        cases hf : rest.filter (fun k => (dkeys d).contains k) with
        | nil => exact absurd hf hfil
        | cons a as => rfl
    · have hc : (dkeys d).contains k = false := by simpa using hk
      have hinner : innerLoop d k Option.none d = Except.ok Option.none :=
        innerLoop_not_mem Option.none hk
      rw [show outerLoop d Option.none (k :: rest)
          = match innerLoop d k Option.none d with
            | Except.error e => Except.error e
            | Except.ok acc2 => outerLoop d acc2 rest from rfl]
      rw [hinner]
      show outerLoop d Option.none rest = _
      rw [ih]
      rw [List.filter_cons_of_neg (by simpa using hk)]

theorem outerLoop_no_match (d : List (String × Task)) (ks : List String)
    (h : ∀ k ∈ ks, k ∉ dkeys d) :
    outerLoop d Option.none ks = Except.ok Option.none := by
  induction ks with
  | nil => rfl
  | cons k rest ih =>
    have hinner : innerLoop d k Option.none d = Except.ok Option.none :=
      innerLoop_not_mem Option.none (h k (List.mem_cons_self _ _))
    rw [show outerLoop d Option.none (k :: rest)
        = match innerLoop d k Option.none d with
          | Except.error e => Except.error e
          | Except.ok acc2 => outerLoop d acc2 rest from rfl]
    rw [hinner]
    exact ih (fun a ha => h a (List.mem_cons_of_mem _ ha))

theorem get_primary_dep_kinds (cfg : PrimaryDep) {l : List String}
    (hcfg : toKindList cfg = some l) (hl : l ≠ []) (d : List (String × Task)) :
    get_primary_dep cfg d =
      match outerLoop d Option.none l with
      | Except.error e => Except.error e
      | Except.ok Option.none => Except.error DepError.cantFindDependency
      | Except.ok (some t) => Except.ok t := by
  have hfalsy : falsy (some l) = false := by
    cases l with
    | nil => exact absurd rfl hl
    | cons a as => rfl
  unfold get_primary_dep
  rw [hcfg]
  simp [hfalsy]

theorem get_primary_dep_falsy (cfg : PrimaryDep)
    (hcfg : falsy (toKindList cfg) = true) (d : List (String × Task)) :
    get_primary_dep cfg d =
      if d.length = 1 then Except.error DepError.valuesNotSubscriptable
      else Except.error DepError.mustDefinePrimary := by
  simp [get_primary_dep, hcfg]

theorem assert_unique_members_iff (kinds : List String) :
    assert_unique_members kinds = true ↔ ¬ kinds.Nodup := by
  unfold assert_unique_members
  rw [bne_iff_ne]
  constructor
  · intro h hnd
    exact h (by rw [List.dedup_eq_self.2 hnd])
  · intro h hne
    apply h
    have hsub := List.dedup_sublist kinds
    have heq : kinds.dedup = kinds := hsub.eq_of_length hne.symm
    rw [← heq]
    exact kinds.nodup_dedup

theorem dinsert_base (x v : Value) :
    dinsert [("dependent-tasks", x)] "primary-dependency" v
      = [("dependent-tasks", x), ("primary-dependency", v)] := by
  unfold dinsert
  have hc : (dkeys [("dependent-tasks", x)]).contains "primary-dependency" = false := rfl
  simp [hc]
  intro hcon
  rw [show dkeys [("dependent-tasks", x)] = ["dependent-tasks"] from rfl] at hcon
  simp at hcon

theorem buildTask_ok {cfg : LoaderConfig} {g : List Task} {b : List (String × Value)}
    (h : buildTask cfg g = Except.ok b) :
    (g.map Task.kind).Nodup ∧
    ∃ p, get_primary_dep cfg.primaryDependency (dictOfTasks g) = Except.ok p ∧
      b = [("dependent-tasks", Value.taskDict (dictOfTasks g)),
           ("primary-dependency", Value.task p)] := by
  unfold buildTask at h
  by_cases ha : assert_unique_members (g.map Task.kind) = true
  · simp [ha] at h
  · simp only [ha, Bool.false_eq_true, if_false] at h
    have hnd : (g.map Task.kind).Nodup := by
      by_contra hcon
      exact ha ((assert_unique_members_iff (g.map Task.kind)).2 hcon)
    refine ⟨hnd, ?_⟩
    cases hga : get_primary_dep cfg.primaryDependency (dictOfTasks g) with
    | error e =>
      rw [hga] at h
      cases h
    | ok p =>
      rw [hga] at h
      refine ⟨p, rfl, ?_⟩
      have hb := Except.ok.inj h
      rw [← hb, dinsert_base]

theorem loader_cons_ok {cfg : LoaderConfig} {g : List Task}
    {t : List (String × Value)} (gs : List (List Task))
    (h : processGroup cfg g = Except.ok t) :
    loader cfg (g :: gs) = (t :: (loader cfg gs).1, (loader cfg gs).2) := by
  simp only [loader, h]

theorem loader_cons_error {cfg : LoaderConfig} {g : List Task} {e : LoaderError}
    (gs : List (List Task)) (h : processGroup cfg g = Except.error e) :
    loader cfg (g :: gs) = ([], some e) := by
  simp only [loader, h]

theorem loader_mem {cfg : LoaderConfig} {groups : List (List Task)}
    {task : List (String × Value)} (h : task ∈ (loader cfg groups).1) :
    ∃ g, g ∈ groups ∧ processGroup cfg g = Except.ok task := by
  induction groups with
  | nil => cases h
  | cons g gs ih =>
    cases hp : processGroup cfg g with
    | error e =>
      rw [loader_cons_error gs hp] at h
      cases h
    | ok t =>
      rw [loader_cons_ok gs hp] at h
      rcases List.mem_cons.1 h with h | h
      · exact ⟨g, List.mem_cons_self _ _, by rw [hp, h]⟩
      · rcases ih h with ⟨g2, hg2, hpg2⟩
        exact ⟨g2, List.mem_cons_of_mem _ hg2, hpg2⟩

theorem buildTask_not_dup {cfg : LoaderConfig} {g : List Task}
    (hnd : (g.map Task.kind).Nodup) :
    buildTask cfg g ≠ Except.error LoaderError.duplicateKinds := by
  intro hcon
  have ha : ¬ assert_unique_members (g.map Task.kind) = true :=
    fun h => (assert_unique_members_iff _).1 h hnd
  unfold buildTask at hcon
  simp only [if_neg ha] at hcon
  cases hg : get_primary_dep cfg.primaryDependency (dictOfTasks g) with
  | error e2 =>
    rw [hg] at hcon
    simp at hcon
  | ok p =>
    rw [hg] at hcon
    simp at hcon

theorem processGroup_not_dup {cfg : LoaderConfig} {g : List Task}
    (hnd : (g.map Task.kind).Nodup) :
    processGroup cfg g ≠ Except.error LoaderError.duplicateKinds := by
  intro hcon
  unfold processGroup at hcon
  cases hb : buildTask cfg g with
  | error e =>
    rw [hb] at hcon
    simp at hcon
    exact buildTask_not_dup hnd (hcon ▸ hb)
  | ok t =>
    rw [hb] at hcon
    by_cases ht : truthyTemplate cfg.taskTemplate = true <;> simp [ht] at hcon

/-- C2: if `primary-dependency` is the string `s` and the dictionary has an
entry at kind `s`, `get_primary_dep` returns that entry, which is one of the
group's tasks. -/
theorem claim_c2 (s : String) (d : List (String × Task)) (t : Task)
    (hnd : (dkeys d).Nodup) (hm : (s, t) ∈ d) :
    get_primary_dep (PrimaryDep.str s) d = Except.ok t ∧ t ∈ dvalues d := by
  have hv : dlookup d s = some t := dlookup_of_mem hnd hm
  have hks : s ∈ dkeys d := List.mem_map.2 ⟨(s, t), hm, rfl⟩
  have houter : outerLoop d Option.none [s] = Except.ok (some t) := by
    rw [show outerLoop d Option.none [s]
        = match innerLoop d s Option.none d with
          | Except.error e => Except.error e
          | Except.ok acc2 => outerLoop d acc2 [] from rfl]
    rw [innerLoop_none hnd hks hv]
    rfl
  constructor
  · rw [get_primary_dep_kinds (PrimaryDep.str s) rfl (by simp) d, houter]
  · exact List.mem_map.2 ⟨(s, t), hm, rfl⟩

/-- Witness for C2 at a concrete dictionary. -/
theorem claim_c2_witness :
    ((dkeys [("a", tA), ("b", tB)]).Nodup ∧ ("a", tA) ∈ [("a", tA), ("b", tB)]) ∧
    (get_primary_dep (PrimaryDep.str "a") [("a", tA), ("b", tB)] = Except.ok tA ∧
      tA ∈ dvalues [("a", tA), ("b", tB)]) :=
  ⟨⟨by decide, by decide⟩,
    claim_c2 "a" [("a", tA), ("b", tB)] tA (by decide) (by decide)⟩

/-- C7: a string-valued `primary-dependency` behaves exactly like the
one-element list of that string. -/
theorem claim_c7 (s : String) (d : List (String × Task)) :
    get_primary_dep (PrimaryDep.str s) d
      = get_primary_dep (PrimaryDep.list [s]) d := rfl

/-- C8: with a single-string `primary-dependency` and a dictionary keyed by
kind (no duplicate keys), the "Too many primary dependent tasks" branch is
unreachable. -/
theorem claim_c8 (s : String) (d : List (String × Task))
    (hnd : (dkeys d).Nodup) :
    get_primary_dep (PrimaryDep.str s) d ≠ Except.error DepError.tooManyPrimary := by
  intro hcon
  rw [get_primary_dep_kinds (PrimaryDep.str s) rfl (by simp) d,
    outerLoop_none d hnd [s]] at hcon
  by_cases hm : s ∈ dkeys d
  · have hc : (dkeys d).contains s = true := by simpa using hm
    rw [show List.filter (fun k => (dkeys d).contains k) [s] = [s] from by
      simp [hc, hm]] at hcon
    rcases dlookup_isSome_of_mem_dkeys hm with ⟨v, hv⟩
    simp [hv] at hcon
  · have hc : (dkeys d).contains s = false := by simpa using hm
    rw [show List.filter (fun k => (dkeys d).contains k) [s] = [] from by
      simp [hc, hm]] at hcon
    simp at hcon

/-- Witness for C8 at a concrete dictionary. -/
theorem claim_c8_witness :
    (dkeys [("a", tA)]).Nodup ∧
    get_primary_dep (PrimaryDep.str "a") [("a", tA)]
      ≠ Except.error DepError.tooManyPrimary :=
  ⟨by decide, claim_c8 "a" [("a", tA)] (by decide)⟩

/-- C4 (behaviour of the code): with `primary-dependency` undefined, a
single-entry dictionary does NOT yield the single task — `dep_tasks.values()[0]`
raises `TypeError` in Python 3 — while a two-entry dictionary raises the
"Must define a primary-dependency!" assertion as the claim states. -/
theorem claim_c4_behaviour :
    get_primary_dep PrimaryDep.undef [("build", tBuild)]
      = Except.error DepError.valuesNotSubscriptable ∧
    get_primary_dep PrimaryDep.undef [("a", tA), ("b", tB)]
      = Except.error DepError.mustDefinePrimary :=
  ⟨rfl, rfl⟩

/-- C5: when `primary-dependency` is specified (a string, or a non-empty
list) and no dictionary key matches any listed kind, `get_primary_dep`
raises "Can't find dependency". -/
theorem claim_c5 (cfg : PrimaryDep) (l : List String) (d : List (String × Task))
    (hcfg : toKindList cfg = some l) (hl : l ≠ [])
    (hnm : ∀ k ∈ l, k ∉ dkeys d) :
    get_primary_dep cfg d = Except.error DepError.cantFindDependency := by
  rw [get_primary_dep_kinds cfg hcfg hl d, outerLoop_no_match d l hnm]

/-- Witness for C5 at a concrete configuration and dictionary. -/
theorem claim_c5_witness :
    (toKindList (PrimaryDep.str "x") = some ["x"] ∧ ["x"] ≠ [] ∧
      ∀ k ∈ ["x"], k ∉ dkeys [("a", tA)]) ∧
    get_primary_dep (PrimaryDep.str "x") [("a", tA)]
      = Except.error DepError.cantFindDependency :=
  ⟨⟨rfl, by decide, by decide⟩,
    claim_c5 (PrimaryDep.str "x") ["x"] [("a", tA)] rfl (by decide) (by decide)⟩

/-- C3 counterexample: `primary-dependency` is `["a", "b"]` and both kinds
have matching deps.  The first listed kind with a match is `"a"`, whose dep
is `tA`, but the loop keeps scanning and the "Too many primary dependent
tasks" assertion fires instead of returning `tA`. -/
theorem claim_c3_counterexample :
    get_primary_dep (PrimaryDep.list ["a", "b"]) [("a", tA), ("b", tB)]
        ≠ Except.ok tA ∧
    get_primary_dep (PrimaryDep.list ["a", "b"]) [("a", tA), ("b", tB)]
        = Except.error DepError.tooManyPrimary := by
  refine ⟨?_, rfl⟩
  intro hcon
  rw [show get_primary_dep (PrimaryDep.list ["a", "b"]) [("a", tA), ("b", tB)]
      = Except.error DepError.tooManyPrimary from rfl] at hcon
  cases hcon

/-- C3 (amended): with `primary-dependency` a list of kinds and a
kind-keyed dictionary, if exactly one listed kind has a matching dep then
`get_primary_dep` returns that dep (the first, and only, listed kind with a
match); if two or more listed kinds have matching deps, it raises the
"Too many primary dependent tasks" assertion instead of returning. -/
theorem claim_c3_amended (l : List String) (d : List (String × Task))
    (hnd : (dkeys d).Nodup) :
    (∀ k t, l.filter (fun k2 => (dkeys d).contains k2) = [k] →
      dlookup d k = some t →
      get_primary_dep (PrimaryDep.list l) d = Except.ok t) ∧
    (2 ≤ (l.filter (fun k2 => (dkeys d).contains k2)).length →
      get_primary_dep (PrimaryDep.list l) d
        = Except.error DepError.tooManyPrimary) := by
  constructor
  · intro k t hf hv
    have hl : l ≠ [] := by
      intro hcon
      rw [hcon] at hf
      cases hf
    rw [get_primary_dep_kinds (PrimaryDep.list l) rfl hl d,
      outerLoop_none d hnd l, hf]
    simp [hv]
  · intro hlen
    have hl : l ≠ [] := by
      intro hcon
      rw [hcon] at hlen
      simp at hlen
    rw [get_primary_dep_kinds (PrimaryDep.list l) rfl hl d,
      outerLoop_none d hnd l]
    cases hf : l.filter (fun k2 => (dkeys d).contains k2) with
    | nil =>
      rw [hf] at hlen
      simp at hlen
    | cons a as =>
      cases as with
      | nil =>
        rw [hf] at hlen
        simp at hlen
      | cons b bs => rfl

/-- Witness for the amended C3: one matching kind in the list. -/
theorem claim_c3_witness :
    ((dkeys [("a", tA)]).Nodup ∧
      ["x", "a"].filter (fun k2 => (dkeys [("a", tA)]).contains k2) = ["a"] ∧
      dlookup [("a", tA)] "a" = some tA) ∧
    get_primary_dep (PrimaryDep.list ["x", "a"]) [("a", tA)] = Except.ok tA :=
  ⟨⟨by decide, by decide, by decide⟩,
    (claim_c3_amended ["x", "a"] [("a", tA)] (by decide)).1 "a" tA
      (by decide) (by decide)⟩

/-- C6: `assert_unique_members` raises exactly when its input has a
duplicate; hence `loader` raises (yielding nothing) on a group with two
tasks of the same kind, and a group whose kinds are pairwise distinct never
trips the uniqueness exception. -/
theorem claim_c6 (kinds : List String) (cfg : LoaderConfig) (g : List Task)
    (gs : List (List Task)) :
    (assert_unique_members kinds = true ↔ ¬ kinds.Nodup) ∧
    (¬ (g.map Task.kind).Nodup →
      loader cfg (g :: gs) = ([], some LoaderError.duplicateKinds)) ∧
    (¬ (g.map Task.kind).Nodup → ∀ gs1 gs2 : List (List Task),
      (loader cfg (gs1 ++ g :: gs2)).2 ≠ Option.none) ∧
    ((g.map Task.kind).Nodup →
      processGroup cfg g ≠ Except.error LoaderError.duplicateKinds) := by
  have hdupLoader : ¬ (g.map Task.kind).Nodup →
      ∀ gs2 : List (List Task),
        loader cfg (g :: gs2) = ([], some LoaderError.duplicateKinds) := by
    intro hdup gs2
    have ha : assert_unique_members (g.map Task.kind) = true :=
      (assert_unique_members_iff _).2 hdup
    have hb : buildTask cfg g = Except.error LoaderError.duplicateKinds := by
      unfold buildTask
      simp [ha]
    have hp : processGroup cfg g = Except.error LoaderError.duplicateKinds := by
      unfold processGroup
      rw [hb]
    exact loader_cons_error gs2 hp
  refine ⟨assert_unique_members_iff kinds, fun hdup => hdupLoader hdup gs,
    ?_, ?_⟩
  · intro hdup gs1 gs2
    induction gs1 with
    | nil =>
      rw [show ([] : List (List Task)) ++ g :: gs2 = g :: gs2 from rfl,
        hdupLoader hdup gs2]
      simp
    | cons x xs ih =>
      cases hp : processGroup cfg x with
      | error e =>
        rw [show (x :: xs) ++ g :: gs2 = x :: (xs ++ g :: gs2) from rfl,
          loader_cons_error (xs ++ g :: gs2) hp]
        simp
      | ok t =>
        rw [show (x :: xs) ++ g :: gs2 = x :: (xs ++ g :: gs2) from rfl,
          loader_cons_ok (xs ++ g :: gs2) hp]
        exact ih
  · intro hnd
    exact processGroup_not_dup hnd

/-- Witness for C6: a duplicated kind aborts `loader`; distinct kinds pass
the assertion. -/
theorem claim_c6_witness :
    (¬ ([tA, tA2].map Task.kind).Nodup ∧
      loader ⟨PrimaryDep.str "a", Option.none⟩ [[tA, tA2]]
        = ([], some LoaderError.duplicateKinds)) ∧
    (([tA].map Task.kind).Nodup ∧
      processGroup ⟨PrimaryDep.str "a", Option.none⟩ [tA]
        ≠ Except.error LoaderError.duplicateKinds) :=
  ⟨⟨by decide,
    (claim_c6 [] ⟨PrimaryDep.str "a", Option.none⟩ [tA, tA2] []).2.1 (by decide)⟩,
   ⟨by decide,
    (claim_c6 [] ⟨PrimaryDep.str "a", Option.none⟩ [tA] []).2.2.2 (by decide)⟩⟩

/-- C9: when a (truthy) `task-template` is configured, every task yielded by
`loader` comes from `processGroup`, and the template update maps every
template key to the template's value — overwriting any computed entry such
as `dependent-tasks` or `primary-dependency` when the template defines it —
while keys outside the template keep the value computed before the update
(`copy.deepcopy` is identity in this pure embedding). -/
theorem claim_c9 (cfg : LoaderConfig) (tmpl : List (String × Value))
    (h1 : cfg.taskTemplate = some tmpl) (h2 : tmpl ≠ [])
    (h3 : (dkeys tmpl).Nodup) :
    (∀ groups task, task ∈ (loader cfg groups).1 →
      ∃ g, g ∈ groups ∧ processGroup cfg g = Except.ok task) ∧
    (∀ g b task, buildTask cfg g = Except.ok b →
      processGroup cfg g = Except.ok task →
      task = dupdate b tmpl ∧
      (∀ p ∈ tmpl, dlookup task p.1 = some p.2) ∧
      (∀ k, k ∉ dkeys tmpl → dlookup task k = dlookup b k)) := by
  constructor
  · intro groups task h
    exact loader_mem h
  · intro g b task hb hp
    have htruthy : truthyTemplate (some tmpl) = true := by
      cases tmpl with
      | nil => exact absurd rfl h2
      | cons q rest => rfl
    unfold processGroup at hp
    simp only [hb, h1, htruthy, if_true, Option.getD_some] at hp
    have he : dupdate b tmpl = task := by
      simpa using hp
    refine ⟨he.symm, ?_, ?_⟩
    · intro p hpm
      rw [← he]
      exact dlookup_dupdate_mem b h3 (by simpa using hpm)
    · intro k hk
      rw [← he]
      exact dlookup_dupdate_not_mem b tmpl k hk

/-- Witness for C9: a template that overwrites `dependent-tasks` and adds a
new key. -/
theorem claim_c9_witness :
    (LoaderConfig.taskTemplate
        ⟨PrimaryDep.str "a", some [("dependent-tasks", Value.payload "X")]⟩
      = some [("dependent-tasks", Value.payload "X")] ∧
      [("dependent-tasks", Value.payload "X")] ≠ ([] : List (String × Value)) ∧
      (dkeys [("dependent-tasks", Value.payload "X")]).Nodup) ∧
    (∀ groups task,
      task ∈ (loader ⟨PrimaryDep.str "a",
        some [("dependent-tasks", Value.payload "X")]⟩ groups).1 →
      ∃ g, g ∈ groups ∧
        processGroup ⟨PrimaryDep.str "a",
          some [("dependent-tasks", Value.payload "X")]⟩ g = Except.ok task) :=
  ⟨⟨rfl, by decide, by decide⟩,
    (claim_c9 ⟨PrimaryDep.str "a", some [("dependent-tasks", Value.payload "X")]⟩
      [("dependent-tasks", Value.payload "X")] rfl (by decide) (by decide)).1⟩

/-- C1 counterexample: the group `[tA, tB]` has pairwise distinct kinds, yet
`loader` (with no `primary-dependency` configured) raises inside
`get_primary_dep` and yields no task dictionary at all, not exactly one. -/
theorem claim_c1_counterexample :
    tA.kind ≠ tB.kind ∧
    (loader ⟨PrimaryDep.undef, Option.none⟩ [[tA, tB]]).1 = [] := by
  exact ⟨by decide, rfl⟩

/-- C1 (amended): provided `loader` finishes without raising — in
particular `get_primary_dep` succeeds on every group — and the task
template (if any) does not define `dependent-tasks`, loader yields exactly
one task dictionary per group, in order, whose `dependent-tasks` entry is
the group's kind-keyed dictionary: it maps each task's kind to that task
and its values are exactly the tasks of the group. -/
theorem claim_c1_amended (cfg : LoaderConfig) (groups : List (List Task))
    (hok : (loader cfg groups).2 = Option.none)
    (htmpl : ∀ tmpl, cfg.taskTemplate = some tmpl →
      "dependent-tasks" ∉ dkeys tmpl) :
    List.Forall₂ (fun g task =>
      dlookup task "dependent-tasks" = some (Value.taskDict (dictOfTasks g)) ∧
      (∀ t ∈ g, dlookup (dictOfTasks g) t.kind = some t) ∧
      dvalues (dictOfTasks g) = g) groups (loader cfg groups).1 := by
  induction groups with
  | nil => exact List.Forall₂.nil
  | cons g gs ih =>
    cases hp : processGroup cfg g with
    | error e =>
      rw [loader_cons_error gs hp] at hok
      cases hok
    | ok t =>
      have hl := loader_cons_ok gs hp
      rw [hl] at hok
      rw [hl]
      have hok2 : (loader cfg gs).2 = Option.none := hok
      have hbuild : ∃ b, buildTask cfg g = Except.ok b ∧
          (t = b ∨ ∃ tmpl, cfg.taskTemplate = some tmpl ∧ t = dupdate b tmpl) := by
        unfold processGroup at hp
        cases hb : buildTask cfg g with
        | error e2 =>
          rw [hb] at hp
          cases hp
        | ok b =>
          simp only [hb] at hp
          by_cases ht : truthyTemplate cfg.taskTemplate = true
          · cases hT : cfg.taskTemplate with
            | none =>
              rw [hT] at ht
              cases ht
            | some tm =>
              refine ⟨b, rfl, Or.inr ⟨tm, rfl, ?_⟩⟩
              rw [hT] at ht
              simp only [hT, ht, if_true, Option.getD_some] at hp
              exact (Except.ok.inj hp).symm
          · refine ⟨b, rfl, Or.inl ?_⟩
            simp only [ht, if_false] at hp
            exact (Except.ok.inj hp).symm
      rcases hbuild with ⟨b, hb, hform⟩
      rcases buildTask_ok hb with ⟨hnd, p, hgp, hbeq⟩
      have hlookb : dlookup b "dependent-tasks"
          = some (Value.taskDict (dictOfTasks g)) := by
        rw [hbeq]
        simp [dlookup]
      have hlookt : dlookup t "dependent-tasks"
          = some (Value.taskDict (dictOfTasks g)) := by
        rcases hform with rfl | ⟨tmpl, hT, rfl⟩
        · exact hlookb
        · rw [dlookup_dupdate_not_mem b tmpl _ (htmpl tmpl hT)]
          exact hlookb
      apply List.Forall₂.cons
      · exact ⟨hlookt, fun t2 ht2 => dlookup_dictOfTasks hnd ht2,
          dvalues_dictOfTasks hnd⟩
      · exact ih hok2

/-- Witness for the amended C1 at a concrete configuration and group. -/
theorem claim_c1_witness :
    (loader ⟨PrimaryDep.str "a", Option.none⟩ [[tA]]).2 = Option.none ∧
    List.Forall₂ (fun g task =>
      dlookup task "dependent-tasks" = some (Value.taskDict (dictOfTasks g)) ∧
      (∀ t ∈ g, dlookup (dictOfTasks g) t.kind = some t) ∧
      dvalues (dictOfTasks g) = g)
      [[tA]] (loader ⟨PrimaryDep.str "a", Option.none⟩ [[tA]]).1 :=
  ⟨rfl, claim_c1_amended ⟨PrimaryDep.str "a", Option.none⟩ [[tA]] rfl
    (fun _ h => Option.noConfusion h)⟩

end MultiDep
